import Mathlib

/-!
# Verification of the `py-money` Money value type

Shallow embedding of `src/money/money.py` (class `Money`) over exact
rationals.  Python `Decimal` values are exact decimal rationals and every
observation the code makes of them (`!=`, `<`, `==`, `int(...)`,
arithmetic) is value-level, so a `Decimal` is embedded as the rational
number it denotes.

The currency registry (`money/currency.py`, `CurrencyHelper`) is not part
of the sources; it is modelled from the spec: a registered currency
carries a `subunit_divisor` that is a positive power of ten (stored here
through its exponent `subexp`, divisor `10 ^ subexp`) and a non-negative
`display_precision` (`precision`).

`Money._round` builds each quantization step as
`Decimal(str(1 / divisor).rstrip("0"))`.  The `rstrip` also strips
trailing zero digits of the exponent of a scientific-notation string
(`str(1 / 10 ** 10)` is `'1e-10'`, stripped to `'1e-1'`), and for
exponents at or beyond 324 the float `1 / 10 ** k` underflows to `0.0`
(step `'0.'`, exponent `0`); `stepExp` reproduces the exponent of the
step the code actually uses.
-/

/-- Python `Decimal.quantize(..., rounding=ROUND_HALF_UP)` rounds to the
nearest representable value with ties away from zero.  `rhu q` is the
integer nearest `q`, ties away from zero. -/
def rhu (q : ℚ) : ℤ :=
  if 0 ≤ q then ⌊q + 1 / 2⌋ else -⌊-q + 1 / 2⌋

/-- Python `int(Decimal)` and `Decimal // Decimal` truncate toward zero. -/
def decTrunc (q : ℚ) : ℤ :=
  if 0 ≤ q then ⌊q⌋ else ⌈q⌉

/-- Modelled from the spec: a registry entry (`CurrencyHelper` data, not
under the sources).  `code` identifies the enum member (distinct
currencies may share registry data, e.g. EUR and GBP); `subunit_divisor`
is a positive power of ten, `10 ^ subexp`; `precision` is the
non-negative display precision. -/
structure Currency where
  code : ℕ
  subexp : ℕ
  precision : ℕ
deriving DecidableEq

/-- `CurrencyHelper.sub_unit_for_currency`: the sub-unit divisor. -/
def Currency.subunitDivisor (c : Currency) : ℕ := 10 ^ c.subexp

/-- Sample registry entries used in concrete scenarios (ISO numeric
codes; divisor exponent and display precision as in the spec). -/
def USD : Currency := ⟨840, 2, 2⟩

/-- Euro: two-decimal currency. -/
def EUR : Currency := ⟨978, 2, 2⟩

/-- Pound sterling: two-decimal currency, same registry data as EUR. -/
def GBP : Currency := ⟨826, 2, 2⟩

/-- Yen: `subunit_divisor` 1, `display_precision` 0. -/
def JPY : Currency := ⟨392, 0, 0⟩

/-- Won: `subunit_divisor` 1, `display_precision` 0. -/
def KRW : Currency := ⟨410, 0, 0⟩

/-- A registry entry whose display precision (0) is coarser than its
sub-unit step (divisor 100), as §3 of the spec allows (display precision
may differ from the sub-unit-implied digit count). -/
def ISK : Currency := ⟨352, 2, 0⟩

/-- The error taxonomy of `money/exceptions.py` plus Python's builtin
`ZeroDivisionError` raised by the division operators. -/
inductive MoneyError where
  | invalidAmount (amount : ℚ) (currency : Currency)
  | currencyMismatch
  | invalidOperand
  | divideByZero
deriving DecidableEq

/-- The `Money` value object: exact decimal amount and currency tag. -/
structure Money where
  amount : ℚ
  currency : Currency
deriving DecidableEq

/-- `Decimal.quantize` to the step `10 ^ (-e)` with `ROUND_HALF_UP`:
value-level effect of one quantization stage. -/
def quantizeAt (e : ℕ) (a : ℚ) : ℚ :=
  (rhu (a * 10 ^ e) : ℚ) / 10 ^ e

/-- One pass of stripping trailing decimal zero digits, with enough
fuel to finish (each strip divides by ten, so `k` passes always
suffice). -/
def stripZerosAux : ℕ → ℕ → ℕ
  | 0, k => k
  | fuel + 1, k => if k ≠ 0 ∧ k % 10 = 0 then stripZerosAux fuel (k / 10) else k

/-- A natural number with its trailing decimal zero digits removed: the
effect of `.rstrip("0")` on the exponent digits of a step string
`'1e-k'`. -/
def stripZeros (k : ℕ) : ℕ := stripZerosAux k k

/-- The exponent of the quantization step `Money._round` actually
builds for a divisor `10 ^ k`, `Decimal(str(1 / 10 ** k).rstrip("0"))`:
for `k ≤ 4` the string is plain decimal (`'1.'`, `'0.1'`, …,
`'0.0001'`) with exponent `-k`; for `5 ≤ k ≤ 323` it is scientific
`'1e-k'`, whose trailing zero digits the `rstrip` strips
(`'1e-10'` → `'1e-1'`); for `k ≥ 324` the float `1 / 10 ** k`
underflows to `0.0` and the step becomes `'0.'`, exponent `0`. -/
def stepExp (k : ℕ) : ℕ :=
  if 324 ≤ k then 0 else stripZeros k

lemma stepExp_zero : stepExp 0 = 0 := by decide

lemma stepExp_two : stepExp 2 = 2 := by decide

lemma stepExp_ten : stepExp 10 = 1 := by decide

/-- `Money._round`: quantize to the step built from the sub-unit
divisor, then quantize the result to the step built from
`display_precision`, both half-up.  Each step's exponent is the
`stepExp` of the corresponding registry exponent. -/
def moneyRound (a : ℚ) (c : Currency) : ℚ :=
  quantizeAt (stepExp c.precision) (quantizeAt (stepExp c.subexp) a)

/-- `Money.__init__(amount, currency, round)`: compute the rounded
amount; in rounding mode store it; in strict mode (`round=False`) raise
`InvalidAmountError(amount, currency)` when it differs from the input,
else store the input. -/
def Money.mk' (amount : ℚ) (currency : Currency) (round : Bool) :
    Except MoneyError Money :=
  let rounded := moneyRound amount currency
  if round then .ok ⟨rounded, currency⟩
  else if rounded ≠ amount then .error (.invalidAmount amount currency)
  else .ok ⟨amount, currency⟩

instance {ε α : Type} [DecidableEq ε] [DecidableEq α] :
    DecidableEq (Except ε α) := fun a b =>
  match a, b with
  | .ok x, .ok y => decidable_of_iff (x = y) (by simp)
  | .error x, .error y => decidable_of_iff (x = y) (by simp)
  | .ok _, .error _ => isFalse (by simp)
  | .error _, .ok _ => isFalse (by simp)

/-- The other operand of a binary operator: either another `Money`, or a
non-`Money` value (a raw scalar; its exact value after the code's
`Decimal(other)` conversion is a rational). -/
inductive Operand where
  | money (m : Money)
  | scalar (x : ℚ)

/-- `Money._assert_same_currency` inlined: the currency-mismatch guard.
Runs `k` when the currencies agree, else raises `CurrencyMismatchError`. -/
def Money.withSameCurrency (self other : Money)
    (k : Unit → Except MoneyError α) : Except MoneyError α :=
  if self.currency ≠ other.currency then .error .currencyMismatch else k ()

/-- `Money.__lt__`. -/
def Money.lt (self : Money) (other : Operand) : Except MoneyError Bool :=
  match other with
  | .scalar _ => .error .invalidOperand
  | .money o => self.withSameCurrency o fun _ => .ok (decide (self.amount < o.amount))

/-- `Money.__le__`. -/
def Money.le (self : Money) (other : Operand) : Except MoneyError Bool :=
  match other with
  | .scalar _ => .error .invalidOperand
  | .money o => self.withSameCurrency o fun _ => .ok (decide (self.amount ≤ o.amount))

/-- `Money.__gt__`. -/
def Money.gt (self : Money) (other : Operand) : Except MoneyError Bool :=
  match other with
  | .scalar _ => .error .invalidOperand
  | .money o => self.withSameCurrency o fun _ => .ok (decide (o.amount < self.amount))

/-- `Money.__ge__`. -/
def Money.ge (self : Money) (other : Operand) : Except MoneyError Bool :=
  match other with
  | .scalar _ => .error .invalidOperand
  | .money o => self.withSameCurrency o fun _ => .ok (decide (o.amount ≤ self.amount))

/-- `Money.__eq__`. -/
def Money.eq (self : Money) (other : Operand) : Except MoneyError Bool :=
  match other with
  | .scalar _ => .error .invalidOperand
  | .money o => self.withSameCurrency o fun _ => .ok (decide (self.amount = o.amount))

/-- `Money.__ne__`: `not self == other` (errors of `__eq__` propagate). -/
def Money.ne (self : Money) (other : Operand) : Except MoneyError Bool :=
  (Money.eq self other).map (fun b => !b)

/-- `Money.__add__`: operand must be a same-currency `Money`; the sum is
passed to the constructor in strict mode (`round=False`). -/
def Money.add (self : Money) (other : Operand) : Except MoneyError Money :=
  match other with
  | .scalar _ => .error .invalidOperand
  | .money o => self.withSameCurrency o fun _ =>
      Money.mk' (self.amount + o.amount) self.currency false

/-- `Money.__radd__(other)`: delegates to `self.__add__(other)`. -/
def Money.radd (self : Money) (other : Operand) : Except MoneyError Money :=
  Money.add self other

/-- `Money.__sub__`. -/
def Money.sub (self : Money) (other : Operand) : Except MoneyError Money :=
  match other with
  | .scalar _ => .error .invalidOperand
  | .money o => self.withSameCurrency o fun _ =>
      Money.mk' (self.amount - o.amount) self.currency false

/-- `Money.__rsub__(other)`: delegates to `self.__sub__(other)`. -/
def Money.rsub (self : Money) (other : Operand) : Except MoneyError Money :=
  Money.sub self other

/-- `Money.__mul__`: a `Money` operand is rejected; a scalar product is
re-rounded by `_round` and then wrapped through the strict constructor. -/
def Money.mul (self : Money) (other : Operand) : Except MoneyError Money :=
  match other with
  | .money _ => .error .invalidOperand
  | .scalar x => Money.mk' (moneyRound (self.amount * x) self.currency) self.currency false

/-- `Money.__rmul__(other)`: delegates to `self.__mul__(other)`. -/
def Money.rmul (self : Money) (other : Operand) : Except MoneyError Money :=
  Money.mul self other

/-- `Money.__truediv__`: by a `Money`, the currency check runs first,
then the zero-divisor check, and the plain numeric ratio of the amounts
is returned; by a scalar, zero raises `ZeroDivisionError` and otherwise
the re-rounded quotient is wrapped as a `Money`. -/
def Money.truediv (self : Money) (other : Operand) :
    Except MoneyError (ℚ ⊕ Money) :=
  match other with
  | .money o => self.withSameCurrency o fun _ =>
      if o.amount = 0 then .error .divideByZero
      else .ok (.inl (self.amount / o.amount))
  | .scalar x =>
      if x = 0 then .error .divideByZero
      else (Money.mk' (moneyRound (self.amount / x) self.currency) self.currency false).map .inr

/-- Python `Decimal // Decimal`: integer quotient truncated toward zero. -/
def decFloorDiv (a b : ℚ) : ℚ := (decTrunc (a / b) : ℚ)

/-- Python `Decimal % Decimal`: remainder with the dividend's sign,
`a - (a trunc-div b) * b`. -/
def decMod (a b : ℚ) : ℚ := a - decFloorDiv a b * b

/-- `Money.__floordiv__`: same guard order as `__truediv__`. -/
def Money.floordiv (self : Money) (other : Operand) :
    Except MoneyError (ℚ ⊕ Money) :=
  match other with
  | .money o => self.withSameCurrency o fun _ =>
      if o.amount = 0 then .error .divideByZero
      else .ok (.inl (decFloorDiv self.amount o.amount))
  | .scalar x =>
      if x = 0 then .error .divideByZero
      else (Money.mk' (moneyRound (decFloorDiv self.amount x) self.currency) self.currency false).map .inr

/-- `Money.__mod__`: same guard order as `__truediv__`. -/
def Money.mod (self : Money) (other : Operand) :
    Except MoneyError (ℚ ⊕ Money) :=
  match other with
  | .money o => self.withSameCurrency o fun _ =>
      if o.amount = 0 then .error .divideByZero
      else .ok (.inl (decMod self.amount o.amount))
  | .scalar x =>
      if x = 0 then .error .divideByZero
      else (Money.mk' (moneyRound (decMod self.amount x) self.currency) self.currency false).map .inr

/-- `Money.__neg__`: strict construction of the negated amount. -/
def Money.neg (self : Money) : Except MoneyError Money :=
  Money.mk' (-self.amount) self.currency false

/-- `Money.__pos__`: strict construction of the unchanged amount. -/
def Money.pos (self : Money) : Except MoneyError Money :=
  Money.mk' self.amount self.currency false

/-- `Money.__abs__`: strict construction of the absolute amount. -/
def Money.abs (self : Money) : Except MoneyError Money :=
  Money.mk' |self.amount| self.currency false

/-- `Money.from_sub_units(sub_units, currency)`: strict construction
from `Decimal(sub_units) / Decimal(sub_units_per_unit)`. -/
def Money.from_sub_units (n : ℤ) (currency : Currency) :
    Except MoneyError Money :=
  Money.mk' ((n : ℚ) / (currency.subunitDivisor : ℚ)) currency false

/-- `Money.sub_units`: `int(self.amount * sub_units_per_unit)`,
truncation toward zero. -/
def Money.sub_units (self : Money) : ℤ :=
  decTrunc (self.amount * (self.currency.subunitDivisor : ℚ))

/-- The canonical-precision invariant of a stored amount: it equals its
own two-stage-rounded value. -/
def Money.Valid (self : Money) : Prop :=
  moneyRound self.amount self.currency = self.amount

instance (m : Money) : Decidable m.Valid :=
  inferInstanceAs (Decidable (_ = _))

/-- `a` is an integer multiple of the step `10 ^ (-e)`. -/
def IsMul (e : ℕ) (a : ℚ) : Prop :=
  ∃ m : ℤ, a = (m : ℚ) / 10 ^ e

/-! ## Rounding lemmas -/

lemma rhu_intCast (n : ℤ) : rhu (n : ℚ) = n := by
  have h2 : ⌊(n : ℚ) + 1 / 2⌋ = n := by
    rw [add_comm, Int.floor_add_int]
    norm_num
  have h3 : ⌊-(n : ℚ) + 1 / 2⌋ = -n := by
    rw [add_comm, ← Int.cast_neg, Int.floor_add_int]
    norm_num
  unfold rhu
  split
  · exact h2
  · rw [h3, neg_neg]

lemma quantizeAt_isMul (e : ℕ) (a : ℚ) : IsMul e (quantizeAt e a) :=
  ⟨rhu (a * 10 ^ e), rfl⟩

lemma quantizeAt_of_isMul {e : ℕ} {a : ℚ} (h : IsMul e a) :
    quantizeAt e a = a := by
  obtain ⟨m, rfl⟩ := h
  have h10 : ((10 : ℚ)) ^ e ≠ 0 := by positivity
  unfold quantizeAt
  rw [div_mul_cancel₀ _ h10, rhu_intCast]

lemma IsMul.mono {e e' : ℕ} (h : e ≤ e') {a : ℚ} (ha : IsMul e a) :
    IsMul e' a := by
  obtain ⟨d, rfl⟩ : ∃ d, e' = e + d := ⟨e' - e, by omega⟩
  obtain ⟨m, rfl⟩ := ha
  refine ⟨m * 10 ^ d, ?_⟩
  push_cast
  rw [pow_add]
  field_simp
  ring

lemma IsMul.add {e : ℕ} {a b : ℚ} (ha : IsMul e a) (hb : IsMul e b) :
    IsMul e (a + b) := by
  obtain ⟨m, rfl⟩ := ha
  obtain ⟨n, rfl⟩ := hb
  exact ⟨m + n, by push_cast; ring⟩

lemma IsMul.neg {e : ℕ} {a : ℚ} (ha : IsMul e a) : IsMul e (-a) := by
  obtain ⟨m, rfl⟩ := ha
  exact ⟨-m, by push_cast; ring⟩

lemma IsMul.sub {e : ℕ} {a b : ℚ} (ha : IsMul e a) (hb : IsMul e b) :
    IsMul e (a - b) := by
  rw [sub_eq_add_neg]
  exact ha.add hb.neg

lemma IsMul.abs {e : ℕ} {a : ℚ} (ha : IsMul e a) : IsMul e |a| := by
  rcases abs_cases a with ⟨h, _⟩ | ⟨h, _⟩ <;> rw [h]
  · exact ha
  · exact ha.neg

lemma moneyRound_isMul (a : ℚ) (c : Currency) :
    IsMul (min (stepExp c.subexp) (stepExp c.precision)) (moneyRound a c) := by
  unfold moneyRound
  rcases le_total (stepExp c.precision) (stepExp c.subexp) with h | h
  · rw [min_eq_right h]
    exact quantizeAt_isMul _ _
  · rw [min_eq_left h,
      quantizeAt_of_isMul ((quantizeAt_isMul (stepExp c.subexp) a).mono h)]
    exact quantizeAt_isMul _ _

lemma moneyRound_of_isMul {a : ℚ} {c : Currency}
    (h : IsMul (min (stepExp c.subexp) (stepExp c.precision)) a) :
    moneyRound a c = a := by
  unfold moneyRound
  rw [quantizeAt_of_isMul (h.mono (min_le_left _ _)),
    quantizeAt_of_isMul (h.mono (min_le_right _ _))]

lemma moneyRound_idem (a : ℚ) (c : Currency) :
    moneyRound (moneyRound a c) c = moneyRound a c :=
  moneyRound_of_isMul (moneyRound_isMul a c)

lemma Money.Valid.isMul {m : Money} (h : m.Valid) :
    IsMul (min (stepExp m.currency.subexp) (stepExp m.currency.precision))
      m.amount :=
  h ▸ moneyRound_isMul m.amount m.currency

lemma mk'_ok_of_fix {a : ℚ} {c : Currency} (h : moneyRound a c = a) :
    Money.mk' a c false = .ok ⟨a, c⟩ := by
  unfold Money.mk'
  simp [h]

lemma mk'_round_ok (a : ℚ) (c : Currency) :
    Money.mk' (moneyRound a c) c false = .ok ⟨moneyRound a c, c⟩ :=
  mk'_ok_of_fix (moneyRound_idem a c)

lemma valid_of_isMul {a : ℚ} {c : Currency}
    (h : IsMul (min (stepExp c.subexp) (stepExp c.precision)) a) :
    Money.Valid ⟨a, c⟩ :=
  moneyRound_of_isMul h

lemma valid_round (a : ℚ) (c : Currency) :
    Money.Valid ⟨moneyRound a c, c⟩ :=
  moneyRound_idem a c

/-! ## Claim theorems -/

/-- C1: for every currency and exact-decimal amount, strict construction
(`round=False`) raises `InvalidAmount(amount, currency)` exactly when the
two-stage-rounded value differs from the input, succeeds with the input
amount otherwise; construction with `round=True` always succeeds and
stores the two-stage-rounded value. -/
theorem construction_mode_contract (a : ℚ) (c : Currency) :
    (Money.mk' a c false = .error (.invalidAmount a c) ↔ moneyRound a c ≠ a)
    ∧ (Money.mk' a c false = .ok ⟨a, c⟩ ↔ moneyRound a c = a)
    ∧ Money.mk' a c true = .ok ⟨moneyRound a c, c⟩ := by
  unfold Money.mk'
  by_cases h : moneyRound a c = a <;> simp [h]

/-- C2: for every amount and registered currency (sub-unit divisor a
positive power of ten, display precision a non-negative integer), the
two-stage rounding is idempotent. -/
theorem rounding_idempotent (a : ℚ) (c : Currency) :
    moneyRound (moneyRound a c) c = moneyRound a c :=
  moneyRound_idem a c

/-- C8: `Money("3", JPY) * 1.4995` has amount exactly `4` — the product
is normalized by the two-stage round-half-up rule before wrapping. -/
theorem jpy_scalar_mul_scenario :
    Money.mul ⟨3, JPY⟩ (.scalar (14995 / 10000)) = .ok ⟨4, JPY⟩ := by
  norm_num [Money.mul, Money.mk', moneyRound, quantizeAt, rhu, stepExp_zero,
    JPY]

/-- C9: for `/`, `//` and `%` with a `Money` right operand of a different
currency and zero amount, the result is `CurrencyMismatch`, not
`DivideByZero`: the currency check runs before the zero-divisor check. -/
theorem div_family_mismatch_before_zero (m o : Money)
    (hc : m.currency ≠ o.currency) (hz : o.amount = 0) :
    Money.truediv m (.money o) = .error .currencyMismatch
    ∧ Money.floordiv m (.money o) = .error .currencyMismatch
    ∧ Money.mod m (.money o) = .error .currencyMismatch := by
  refine ⟨?_, ?_, ?_⟩ <;>
    simp [Money.truediv, Money.floordiv, Money.mod, Money.withSameCurrency, hc]

/-- Witness for C9 at `Money("1", USD)` and `Money("0", JPY)`. -/
theorem div_family_mismatch_before_zero_witness :
    Money.truediv ⟨1, USD⟩ (.money ⟨0, JPY⟩) = .error .currencyMismatch
    ∧ Money.floordiv ⟨1, USD⟩ (.money ⟨0, JPY⟩) = .error .currencyMismatch
    ∧ Money.mod ⟨1, USD⟩ (.money ⟨0, JPY⟩) = .error .currencyMismatch :=
  div_family_mismatch_before_zero ⟨1, USD⟩ ⟨0, JPY⟩ (by decide) rfl

/-- C5: each of the six comparison operators raises `InvalidOperand` on a
non-`Money` right operand, raises `CurrencyMismatch` on a `Money` of a
different currency, and otherwise returns the exact decimal comparison
of the amounts. -/
theorem comparison_contract (m o₁ o₂ : Money) (x : ℚ)
    (h₁ : m.currency ≠ o₁.currency) (h₂ : m.currency = o₂.currency) :
    (Money.lt m (.scalar x) = .error .invalidOperand
      ∧ Money.le m (.scalar x) = .error .invalidOperand
      ∧ Money.gt m (.scalar x) = .error .invalidOperand
      ∧ Money.ge m (.scalar x) = .error .invalidOperand
      ∧ Money.eq m (.scalar x) = .error .invalidOperand
      ∧ Money.ne m (.scalar x) = .error .invalidOperand)
    ∧ (Money.lt m (.money o₁) = .error .currencyMismatch
      ∧ Money.le m (.money o₁) = .error .currencyMismatch
      ∧ Money.gt m (.money o₁) = .error .currencyMismatch
      ∧ Money.ge m (.money o₁) = .error .currencyMismatch
      ∧ Money.eq m (.money o₁) = .error .currencyMismatch
      ∧ Money.ne m (.money o₁) = .error .currencyMismatch)
    ∧ (Money.lt m (.money o₂) = .ok (decide (m.amount < o₂.amount))
      ∧ Money.le m (.money o₂) = .ok (decide (m.amount ≤ o₂.amount))
      ∧ Money.gt m (.money o₂) = .ok (decide (o₂.amount < m.amount))
      ∧ Money.ge m (.money o₂) = .ok (decide (o₂.amount ≤ m.amount))
      ∧ Money.eq m (.money o₂) = .ok (decide (m.amount = o₂.amount))
      ∧ Money.ne m (.money o₂) = .ok (decide (m.amount ≠ o₂.amount))) := by
  refine ⟨⟨rfl, rfl, rfl, rfl, rfl, rfl⟩, ?_, ?_⟩
  · simp [Money.lt, Money.le, Money.gt, Money.ge, Money.eq, Money.ne,
      Money.withSameCurrency, h₁, Except.map]
  · simp [Money.lt, Money.le, Money.gt, Money.ge, Money.eq, Money.ne,
      Money.withSameCurrency, h₂, decide_not, Except.map]

/-- Witness for C5 at `Money("1", USD)` against the scalar `1`, the
mismatched `Money("1", JPY)` and the same-currency `Money("2", USD)`. -/
theorem comparison_contract_witness :
    Money.lt ⟨1, USD⟩ (.scalar 1) = .error .invalidOperand
    ∧ Money.lt ⟨1, USD⟩ (.money ⟨1, JPY⟩) = .error .currencyMismatch :=
  ⟨(comparison_contract ⟨1, USD⟩ ⟨1, JPY⟩ ⟨2, USD⟩ 1 (by decide) rfl).1.1,
   (comparison_contract ⟨1, USD⟩ ⟨1, JPY⟩ ⟨2, USD⟩ 1 (by decide) rfl).2.1.1⟩

/-- C6: reflected addition and subtraction with a non-`Money` left
operand always raise `InvalidOperand`; reflected multiplication succeeds
for every scalar and mirrors ordinary multiplication. -/
theorem reflected_operand_contract (m : Money) (x : ℚ) :
    Money.radd m (.scalar x) = .error .invalidOperand
    ∧ Money.rsub m (.scalar x) = .error .invalidOperand
    ∧ Money.rmul m (.scalar x)
        = .ok ⟨moneyRound (m.amount * x) m.currency, m.currency⟩
    ∧ Money.mul m (.scalar x)
        = .ok ⟨moneyRound (m.amount * x) m.currency, m.currency⟩ := by
  have h := mk'_round_ok (m.amount * x) m.currency
  exact ⟨rfl, rfl, h, h⟩

/-- C7: `Money / Money` raises `CurrencyMismatch` on differing
currencies, `DivideByZero` on a same-currency zero divisor, and
otherwise returns the plain numeric ratio of the amounts; `Money /
scalar` raises `DivideByZero` for a zero scalar and otherwise returns a
same-currency `Money` with the two-stage-re-rounded quotient. -/
theorem truediv_contract (m o₁ o₂ o₃ : Money) (x : ℚ)
    (h₁ : m.currency ≠ o₁.currency)
    (h₂ : m.currency = o₂.currency) (hz₂ : o₂.amount = 0)
    (h₃ : m.currency = o₃.currency) (hz₃ : o₃.amount ≠ 0)
    (hx : x ≠ 0) :
    Money.truediv m (.money o₁) = .error .currencyMismatch
    ∧ Money.truediv m (.money o₂) = .error .divideByZero
    ∧ Money.truediv m (.money o₃) = .ok (.inl (m.amount / o₃.amount))
    ∧ Money.truediv m (.scalar 0) = .error .divideByZero
    ∧ Money.truediv m (.scalar x)
        = .ok (.inr ⟨moneyRound (m.amount / x) m.currency, m.currency⟩) := by
  refine ⟨?_, ?_, ?_, ?_, ?_⟩
  · simp [Money.truediv, Money.withSameCurrency, h₁]
  · simp [Money.truediv, Money.withSameCurrency, h₂, hz₂]
  · simp [Money.truediv, Money.withSameCurrency, h₃, hz₃]
  · simp [Money.truediv]
  · simp [Money.truediv, hx, mk'_round_ok, Except.map]

/-- Witness for C7: `Money("3.3", EUR)` against `Money("1.8", GBP)`,
`Money("0", EUR)`, `Money("1.1", EUR)` and the scalar `2`. -/
theorem truediv_contract_witness :
    Money.truediv ⟨33/10, EUR⟩ (.money ⟨18/10, GBP⟩) = .error .currencyMismatch
    ∧ Money.truediv ⟨33/10, EUR⟩ (.money ⟨0, EUR⟩) = .error .divideByZero :=
  ⟨(truediv_contract ⟨33/10, EUR⟩ ⟨18/10, GBP⟩ ⟨0, EUR⟩ ⟨11/10, EUR⟩ 2
      (by decide) rfl rfl rfl (by norm_num) (by norm_num)).1,
   (truediv_contract ⟨33/10, EUR⟩ ⟨18/10, GBP⟩ ⟨0, EUR⟩ ⟨11/10, EUR⟩ 2
      (by decide) rfl rfl rfl (by norm_num) (by norm_num)).2.1⟩

/-- C3: every arithmetic operation returning a `Money` — same-currency
add and subtract, multiply/true-divide/floor-divide/modulo by a nonzero
scalar, negate, unary plus, absolute value — succeeds (never raises
`InvalidAmount`) and its result's amount is a fixed point of the
two-stage rounding rule. -/
theorem arith_results_valid (m o : Money) (x : ℚ)
    (hm : m.Valid) (ho : o.Valid) (hc : o.currency = m.currency)
    (hx : x ≠ 0) :
    (Money.add m (.money o) = .ok ⟨m.amount + o.amount, m.currency⟩
      ∧ Money.Valid ⟨m.amount + o.amount, m.currency⟩)
    ∧ (Money.sub m (.money o) = .ok ⟨m.amount - o.amount, m.currency⟩
      ∧ Money.Valid ⟨m.amount - o.amount, m.currency⟩)
    ∧ (Money.mul m (.scalar x)
        = .ok ⟨moneyRound (m.amount * x) m.currency, m.currency⟩
      ∧ Money.Valid ⟨moneyRound (m.amount * x) m.currency, m.currency⟩)
    ∧ (Money.truediv m (.scalar x)
        = .ok (.inr ⟨moneyRound (m.amount / x) m.currency, m.currency⟩)
      ∧ Money.Valid ⟨moneyRound (m.amount / x) m.currency, m.currency⟩)
    ∧ (Money.floordiv m (.scalar x)
        = .ok (.inr ⟨moneyRound (decFloorDiv m.amount x) m.currency, m.currency⟩)
      ∧ Money.Valid ⟨moneyRound (decFloorDiv m.amount x) m.currency, m.currency⟩)
    ∧ (Money.mod m (.scalar x)
        = .ok (.inr ⟨moneyRound (decMod m.amount x) m.currency, m.currency⟩)
      ∧ Money.Valid ⟨moneyRound (decMod m.amount x) m.currency, m.currency⟩)
    ∧ (Money.neg m = .ok ⟨-m.amount, m.currency⟩
      ∧ Money.Valid ⟨-m.amount, m.currency⟩)
    ∧ (Money.pos m = .ok ⟨m.amount, m.currency⟩
      ∧ Money.Valid ⟨m.amount, m.currency⟩)
    ∧ (Money.abs m = .ok ⟨|m.amount|, m.currency⟩
      ∧ Money.Valid ⟨|m.amount|, m.currency⟩) := by
  have hom : IsMul (min (stepExp m.currency.subexp)
      (stepExp m.currency.precision)) o.amount := by
    have h := ho.isMul
    rw [hc] at h
    exact h
  have hsum : Money.Valid ⟨m.amount + o.amount, m.currency⟩ :=
    valid_of_isMul (hm.isMul.add hom)
  have hdiff : Money.Valid ⟨m.amount - o.amount, m.currency⟩ :=
    valid_of_isMul (hm.isMul.sub hom)
  have hneg : Money.Valid ⟨-m.amount, m.currency⟩ :=
    valid_of_isMul hm.isMul.neg
  have habs : Money.Valid ⟨|m.amount|, m.currency⟩ :=
    valid_of_isMul hm.isMul.abs
  refine ⟨⟨?_, hsum⟩, ⟨?_, hdiff⟩, ⟨?_, valid_round _ _⟩,
    ⟨?_, valid_round _ _⟩, ⟨?_, valid_round _ _⟩, ⟨?_, valid_round _ _⟩,
    ⟨?_, hneg⟩, ⟨?_, valid_of_isMul hm.isMul⟩, ⟨?_, habs⟩⟩
  · simp only [Money.add, Money.withSameCurrency, hc, ne_eq,
      not_true_eq_false, if_false]
    exact mk'_ok_of_fix hsum
  · simp only [Money.sub, Money.withSameCurrency, hc, ne_eq,
      not_true_eq_false, if_false]
    exact mk'_ok_of_fix hdiff
  · exact mk'_round_ok _ _
  · simp [Money.truediv, hx, mk'_round_ok, Except.map]
  · simp [Money.floordiv, hx, mk'_round_ok, Except.map]
  · simp [Money.mod, hx, mk'_round_ok, Except.map]
  · exact mk'_ok_of_fix hneg
  · exact mk'_ok_of_fix (valid_of_isMul hm.isMul)
  · exact mk'_ok_of_fix habs

/-- Witness for C3 at `Money("1.01", USD)`, `Money("2", USD)` and the
scalar `3`. -/
theorem arith_results_valid_witness :
    Money.add ⟨101/100, USD⟩ (.money ⟨2, USD⟩) = .ok ⟨101/100 + 2, USD⟩
    ∧ Money.Valid ⟨101/100 + 2, USD⟩ :=
  (arith_results_valid ⟨101/100, USD⟩ ⟨2, USD⟩ 3
    (by norm_num [Money.Valid, moneyRound, quantizeAt, rhu, stepExp_two, USD])
    (by norm_num [Money.Valid, moneyRound, quantizeAt, rhu, stepExp_two, USD])
    rfl (by norm_num)).1

/-! ## Sub-unit round-trip lemmas -/

lemma isMul_sub_units_quotient (n : ℤ) (c : Currency) :
    IsMul c.subexp ((n : ℚ) / (c.subunitDivisor : ℚ)) := by
  refine ⟨n, ?_⟩
  unfold Currency.subunitDivisor
  push_cast
  ring

lemma from_sub_units_ok_of_good (n : ℤ) (c : Currency)
    (h1 : stepExp c.subexp = c.subexp) (h2 : c.subexp ≤ stepExp c.precision) :
    Money.from_sub_units n c = .ok ⟨(n : ℚ) / (c.subunitDivisor : ℚ), c⟩ := by
  unfold Money.from_sub_units
  apply mk'_ok_of_fix
  apply moneyRound_of_isMul
  rw [h1, min_eq_left h2]
  exact isMul_sub_units_quotient n c

lemma sub_units_of_quotient (n : ℤ) (c : Currency) :
    Money.sub_units ⟨(n : ℚ) / (c.subunitDivisor : ℚ), c⟩ = n := by
  unfold Money.sub_units decTrunc
  have h10 : ((c.subunitDivisor : ℚ)) ≠ 0 := by
    unfold Currency.subunitDivisor
    positivity
  rw [div_mul_cancel₀ _ h10]
  split
  · exact Int.floor_intCast n
  · exact Int.ceil_intCast n

/-- Counterexample to C4 as stated: for the registered currency `ISK`
(sub-unit divisor `100`, display precision `0`) the spec's registry
interface permits, `Money.from_sub_units(1, ISK)` raises `InvalidAmount`
rather than succeeding: `1 / 100` is not a fixed point of the two-stage
rounding (stage 2 rounds it to `0`). -/
theorem from_sub_units_strict_failure :
    Money.from_sub_units 1 ISK = .error (.invalidAmount (1/100) ISK) := by
  norm_num [Money.from_sub_units, Money.mk', moneyRound, quantizeAt, rhu,
    stepExp_two, stepExp_zero, Currency.subunitDivisor, ISK]

/-- C4 (amended): for every integer `n ≥ 0` and every registered
currency whose sub-unit step survives the code's step-string
construction (`stepExp subexp = subexp`: the divisor exponent has no
trailing zero digits and lies below the float-underflow bound — true of
every divisor up to `10 ^ 4`) and whose effective display step covers
the sub-unit step (`subexp ≤ stepExp precision`), `from_sub_units`
succeeds without raising `InvalidAmount` and the round-trip through
`sub_units` returns `n`. -/
theorem from_sub_units_roundtrip (n : ℤ) (c : Currency)
    (hn : 0 ≤ n) (h1 : stepExp c.subexp = c.subexp)
    (h2 : c.subexp ≤ stepExp c.precision) :
    Money.from_sub_units n c = .ok ⟨(n : ℚ) / (c.subunitDivisor : ℚ), c⟩
    ∧ Money.sub_units ⟨(n : ℚ) / (c.subunitDivisor : ℚ), c⟩ = n :=
  ⟨from_sub_units_ok_of_good n c h1 h2, sub_units_of_quotient n c⟩

/-- Witness for C4 (amended) at `n = 101` and USD:
`Money.from_sub_units(101, USD)` equals `Money("1.01", USD)` and
converts back to `101` sub-units. -/
theorem from_sub_units_roundtrip_witness :
    Money.from_sub_units 101 USD
      = .ok ⟨((101 : ℤ) : ℚ) / (USD.subunitDivisor : ℚ), USD⟩
    ∧ Money.sub_units ⟨((101 : ℤ) : ℚ) / (USD.subunitDivisor : ℚ), USD⟩ = 101 :=
  from_sub_units_roundtrip 101 USD (by norm_num) (by decide) (by decide)

/-- Counterexample to C10 as stated: the registered currency with
sub-unit divisor `10 ^ 10` and display precision `10` has a display
precision that covers its sub-unit step, yet
`Money.from_sub_units(-1, c)` raises `InvalidAmount`: the code's step
string `str(1 / 10 ** 10).rstrip("0")` collapses `'1e-10'` to
`'1e-1'`, so `_round` quantizes `-1e-10` at one decimal place,
producing `0 ≠ -1e-10`. -/
theorem from_sub_units_negative_failure :
    Money.from_sub_units (-1) ⟨0, 10, 10⟩
      = .error (.invalidAmount (-(1 / 10 ^ 10)) ⟨0, 10, 10⟩) := by
  norm_num [Money.from_sub_units, Money.mk', moneyRound, quantizeAt, rhu,
    stepExp_ten, Currency.subunitDivisor]

/-- C10 (amended): the sub-unit round-trip also holds for negative
counts when the sub-unit step survives the step-string construction and
the effective display step covers it: the stored amount is an exact
integer multiple of the sub-unit step, so the truncation toward zero in
`sub_units` is lossless. -/
theorem from_sub_units_roundtrip_negative (n : ℤ) (c : Currency)
    (hn : n < 0) (h1 : stepExp c.subexp = c.subexp)
    (h2 : c.subexp ≤ stepExp c.precision) :
    Money.from_sub_units n c = .ok ⟨(n : ℚ) / (c.subunitDivisor : ℚ), c⟩
    ∧ Money.sub_units ⟨(n : ℚ) / (c.subunitDivisor : ℚ), c⟩ = n :=
  ⟨from_sub_units_ok_of_good n c h1 h2, sub_units_of_quotient n c⟩

/-- Witness for C10 at `n = -3` and USD. -/
theorem from_sub_units_roundtrip_negative_witness :
    Money.from_sub_units (-3) USD
      = .ok ⟨((-3 : ℤ) : ℚ) / (USD.subunitDivisor : ℚ), USD⟩
    ∧ Money.sub_units ⟨((-3 : ℤ) : ℚ) / (USD.subunitDivisor : ℚ), USD⟩ = -3 :=
  from_sub_units_roundtrip_negative (-3) USD (by norm_num) (by decide)
    (by decide)
